import Mathlib

/-!
Shallow embedding of `latlongrid/latlongrid.py` (TUW-GEO/latlongrid).

Python strings are modelled as `List Char`, Python floats as exact rationals,
and raised exceptions as `Except` errors tagged with the Python exception
class.  Integer `//` and `%` are written with the Lean `/` and `%` on `ℤ`;
every divisor reached by the theorems below is a positive tile size, where
the euclidean operations of Lean agree with the floor-based ones of Python.
-/

namespace LatLonGridPy

/-- A Python string, modelled as its list of characters. -/
abbrev PyStr := List Char

/-- Characters of a Lean string literal, used to write Python string constants. -/
def pys (s : String) : PyStr := s.data

/-- The Python exceptions raised by the embedded code: `ValueError`,
`AttributeError`, and the `UnboundLocalError` raised by a read of a local
variable that was never assigned. -/
inductive PyError where
  | valueError (msg : PyStr)
  | attributeError (msg : PyStr)
  | unboundLocalError (var : PyStr)
  deriving DecidableEq, Repr

/-- `true` iff the computation raised a `ValueError`. -/
def raisedValueError {α : Type} : Except PyError α → Bool
  | .error (.valueError _) => true
  | _ => false

/-- `true` iff the computation returned normally. -/
def resultOk {α : Type} : Except PyError α → Bool
  | .ok _ => true
  | .error _ => false

/-- The character of a decimal digit. -/
def digitChar (d : Nat) : Char := Char.ofNat (48 + d)

def natDigitsAux : Nat → Nat → List Char
  | 0, _ => []
  | fuel + 1, n =>
    if n < 10 then [digitChar n]
    else natDigitsAux fuel (n / 10) ++ [digitChar (n % 10)]

/-- Decimal digits of a natural number, as Python `str` renders it. -/
def natDigits (n : Nat) : List Char := natDigitsAux (n + 1) n

/-- Python `str` of an integer. -/
def intRepr (n : ℤ) : PyStr :=
  if 0 ≤ n then natDigits n.toNat else '-' :: natDigits (-n).toNat

/-- Python `str.rjust(width, fill)`. -/
def pyRJust (l : PyStr) (width : Nat) (fill : Char) : PyStr :=
  List.replicate (width - l.length) fill ++ l

/-- Python `"{:03d}".format(n)`: zero-pad to width 3 after the sign. -/
def fmt03d (n : ℤ) : PyStr :=
  if 0 ≤ n then pyRJust (natDigits n.toNat) 3 '0'
  else '-' :: pyRJust (natDigits (-n).toNat) 2 '0'

/-- The three digit characters of an `n < 1000`, as `"{:03d}"` renders them. -/
def pad3 (n : Nat) : PyStr :=
  [digitChar (n / 100), digitChar (n / 10 % 10), digitChar (n % 10)]

/-- Numeric value of a decimal digit character. -/
def digitVal (c : Char) : Option Nat :=
  if 48 ≤ c.toNat ∧ c.toNat ≤ 57 then some (c.toNat - 48) else none

def parseDigitsAux : List Char → Nat → Option Nat
  | [], acc => some acc
  | c :: rest, acc =>
    match digitVal c with
    | some d => parseDigitsAux rest (acc * 10 + d)
    | none => none

/-- Python `int(s)` on a string: an optional sign followed by at least one
decimal digit; anything else raises `ValueError`. -/
def pyInt : PyStr → Option ℤ
  | [] => none
  | '-' :: rest =>
    if rest.isEmpty then none else (parseDigitsAux rest 0).map (fun n => -(n : ℤ))
  | '+' :: rest =>
    if rest.isEmpty then none else (parseDigitsAux rest 0).map (fun n => (n : ℤ))
  | l => (parseDigitsAux l 0).map (fun n => (n : ℤ))

def pyFloatAux (l : List Char) : Option ℚ :=
  let intPart := l.takeWhile (fun c => (digitVal c).isSome)
  let rest := l.dropWhile (fun c => (digitVal c).isSome)
  match rest with
  | [] =>
    if intPart.isEmpty then none
    else (parseDigitsAux intPart 0).map (fun n => (n : ℚ))
  | '.' :: frac =>
    if frac.all (fun c => (digitVal c).isSome) ∧ ¬(intPart.isEmpty ∧ frac.isEmpty) then
      match parseDigitsAux intPart 0, parseDigitsAux frac 0 with
      | some i, some f => some ((i : ℚ) + (f : ℚ) / (10 : ℚ) ^ frac.length)
      | _, _ => none
    else none
  | _ => none

/-- Python `float(s)` restricted to the plain decimal forms the embedded code
can meet: optional sign, digits, optionally a point with fraction digits. -/
def pyFloat : PyStr → Option ℚ
  | [] => none
  | '-' :: rest => (pyFloatAux rest).map (fun q => -q)
  | '+' :: rest => pyFloatAux rest
  | l => pyFloatAux l

/-- Python `int(x)` on a float: truncation toward zero. -/
def pyTrunc (x : ℚ) : ℤ := if 0 ≤ x then ⌊x⌋ else ⌈x⌉

/-- Python `round(x)` to an integer: round half to even. -/
def pyRound (x : ℚ) : ℤ :=
  if x - ⌊x⌋ < 1/2 then ⌊x⌋
  else if (1 : ℚ)/2 < x - ⌊x⌋ then ⌊x⌋ + 1
  else if ⌊x⌋ % 2 = 0 then ⌊x⌋ else ⌊x⌋ + 1

/-- Python `s.split(sep)` for a one-character separator. -/
def pySplit (sep : Char) : List Char → List (List Char)
  | [] => [[]]
  | c :: rest =>
    if c = sep then [] :: pySplit sep rest
    else
      match pySplit sep rest with
      | [] => [[c]]
      | t :: ts => (c :: t) :: ts

/-- Python `s.split(sep)[-1]`: the substring after the last separator. -/
def splitLast (sep : Char) (l : List Char) : List Char := (pySplit sep l).getLastD []

/-- Python `s[a:b]` for `0 ≤ a ≤ b`. -/
def pySlice (l : PyStr) (a b : Nat) : PyStr := (l.drop a).take (b - a)

/-- Python `<` on strings: lexicographic comparison by code point. -/
def pyStrLt : PyStr → PyStr → Bool
  | [], [] => false
  | [], _ :: _ => true
  | _ :: _, [] => false
  | x :: xs, y :: ys =>
    if x.toNat < y.toNat then true
    else if y.toNat < x.toNat then false
    else pyStrLt xs ys

/-- Python `>=` on strings. -/
def pyStrGe (a b : PyStr) : Bool := ! pyStrLt a b

/-- `np.arange(start, stop, step)` over integers with a positive step. -/
def intArange (start stop step : ℤ) : List ℤ :=
  if 0 < step then
    (List.range ((stop - start + step - 1) / step).toNat).map (fun k => start + step * (k : ℤ))
  else []

/-- `np.isclose` with its default tolerances `rtol=1e-05`, `atol=1e-08`. -/
def npIsClose (a b : ℚ) : Bool :=
  decide (|a - b| ≤ 1/100000000 + (1/100000) * |b|)

/-- `LatLonGrid._static_sampling`. -/
def static_sampling : List ℚ :=
  [0.0001, 0.00016, 0.0002, 0.0003, 0.0004, 0.0005, 0.0006, 0.0008, 0.001,
   0.0016, 0.002, 0.003, 0.004, 0.005, 0.006, 0.008, 0.01]

/-- `LatLonGrid.encode_sampling`. -/
def encode_sampling (sampling : ℚ) : Except PyError PyStr :=
  let p : ℤ × Char :=
    if sampling < 0.001 then (pyTrunc (sampling * 1000000), 'U')
    else if sampling < 1 then (pyTrunc (sampling * 1000), 'M')
    else (pyTrunc sampling, 'D')
  let sampling_str := pyRJust (intRepr p.1) 3 '0' ++ [p.2]
  if 4 < sampling_str.length then
    .error (.valueError (pys "Resolution is badly defined!"))
  else .ok sampling_str

/-- `LatLonGrid.decode_sampling`. -/
def decode_sampling (sampling_str : PyStr) : Except PyError ℚ :=
  if sampling_str.length ≠ 4 then
    .error (.valueError (pys "Resolution is badly defined!"))
  else
    let scale : Option ℚ :=
      if sampling_str.contains 'U' then some (1/1000000)
      else if sampling_str.contains 'M' then some (1/1000)
      else if sampling_str.contains 'D' then some 1
      else none
    match scale with
    | none => .error (.valueError (pys "Resolution is badly defined!"))
    | some sc =>
      match pyFloat sampling_str.dropLast with
      | some v => .ok (v * sc)
      | none => .error (.valueError (pys "could not convert string to float"))

/-- `LatLonGrid.get_tiletype` for an explicitly given sampling:
`sampling_scaled = int(round(sampling * 1e4))`, then the four bucketing rules
checked in order, else `ValueError`. -/
def get_tiletype (sampling : ℚ) : Except PyError PyStr :=
  let sampling_scaled : ℤ := pyRound (sampling * 10000)
  if 1 ≤ sampling_scaled ∧ sampling_scaled < 3 ∧ 10000 % sampling_scaled = 0 then
    .ok (pys "T1")
  else if 3 ≤ sampling_scaled ∧ sampling_scaled < 6 ∧ 30000 % sampling_scaled = 0 then
    .ok (pys "T3")
  else if 6 ≤ sampling_scaled ∧ sampling_scaled < 20 ∧ 60000 % sampling_scaled = 0 then
    .ok (pys "T6")
  else if 20 ≤ sampling_scaled ∧ sampling_scaled < 101 ∧ 180000 % sampling_scaled = 0 then
    .ok (pys "T18")
  else
    .error (.valueError (pys "Error: Given resolution is not supported! Supported resolutions: [0.0001, 0.00016, 0.0002, 0.0003, 0.0004, 0.0005, 0.0006, 0.0008, 0.001, 0.0016, 0.002, 0.003, 0.004, 0.005, 0.006, 0.008, 0.01]"))

/-- `LatLonGrid.get_tilesize`: the tile size keyed by the tile type. -/
def get_tilesize (sampling : ℚ) : Except PyError (ℤ × ℤ) := do
  let tt ← get_tiletype sampling
  let size : ℤ :=
    if tt = pys "T18" then 18 else if tt = pys "T6" then 6
    else if tt = pys "T3" then 3 else 1
  .ok (size, size)

/-- The state of a `LatLonTilingSystem`: the `TPSCoreProperty` fields its
methods read, plus the three error-message attributes set in `__init__`. -/
structure Core where
  tag : PyStr
  sampling : ℚ
  tiletype : PyStr
  tile_xsize_m : ℤ
  tile_ysize_m : ℤ
  msg1 : PyStr
  msg2 : PyStr
  msg3 : PyStr
  deriving DecidableEq, Repr

/-- Construction of the tiling-system state for a sampling:
`LatLonGrid.__init__` checks the sampling against `_static_sampling`, the
`pytileproj` base class derives `core.tiletype` and the tile sizes from the
sampling via `get_tiletype`/`get_tilesize`, and `LatLonTilingSystem.__init__`
formats the messages `msg1`, `msg2`, `msg3` from those fields. -/
def mkCore (sampling : ℚ) : Except PyError Core := do
  if ¬ static_sampling.contains sampling then
    .error (.valueError (pys "Sampling is not supported!"))
  else do
    let tt ← get_tiletype sampling
    let sz ← get_tilesize sampling
    let sstr ← encode_sampling sampling
    .ok { tag := pys "GL", sampling := sampling, tiletype := tt,
          tile_xsize_m := sz.1, tile_ysize_m := sz.2,
          msg1 := pys "\"tilename\" is not properly defined! Examples: \"" ++ pys "GL"
                    ++ sstr ++ pys "_E012N036" ++ tt ++ pys "\" or \"E012N036" ++ tt
                    ++ pys "\"",
          msg2 := pys "East and North coordinates of lower-left-pixel must be multiples of "
                    ++ intRepr sz.2 ++ pys "°!",
          msg3 := pys "Tilecode must be one of T18, T6, T3, T1!" }

/-- The tiling-system state for a sampling, with a junk default for
unsupported samplings (`mkCore` is the authoritative constructor). -/
def coreOf (sampling : ℚ) : Core :=
  match mkCore sampling with
  | .ok c => c
  | .error _ => ⟨[], 0, [], 0, 0, [], [], []⟩

/-- `LatLonTilingSystem.round_lonlat2lowerleft`. -/
def round_lonlat2lowerleft (c : Core) (lon lat : ℚ) : ℚ × ℚ :=
  ((⌊(lon + 180) / (c.tile_xsize_m : ℚ)⌋ : ℚ) * (c.tile_xsize_m : ℚ) - 180,
   (⌊(lat + 90) / (c.tile_ysize_m : ℚ)⌋ : ℚ) * (c.tile_ysize_m : ℚ) - 90)

/-- `int(...)` applied to a string inside the decoder: a parse failure is a
`ValueError`. -/
def pyIntE (l : PyStr) : Except PyError ℤ :=
  match pyInt l with
  | some n => .ok n
  | none => .error (.valueError (pys "invalid literal for int() with base 10"))

/-- `LatLonTilingSystem.decode_tilename`. -/
def decode_tilename (c : Core) (tilename : PyStr) :
    Except PyError (PyStr × ℚ × ℤ × ℤ × ℤ × PyStr) :=
  let tf := c.tile_ysize_m
  if tilename.length = 10 ∨ tilename.length = 11 then do
    let tile_size_d ← pyIntE (splitLast 'T' tilename)
    if tile_size_d ≠ c.tile_xsize_m then .error (.valueError c.msg1)
    else do
    let ll_lon := (← pyIntE (pySlice tilename 1 4)) - 180
    if ll_lon % tf ≠ 0 then .error (.valueError c.msg2)
    else do
    let ll_lat := (← pyIntE (pySlice tilename 5 8)) - 90
    if ll_lat % tf ≠ 0 then .error (.valueError c.msg2)
    else do
    let tilecode := 'T' :: splitLast 'T' tilename
    if tilecode ≠ c.tiletype then .error (.valueError c.msg1)
    else .ok (c.tag, c.sampling, tile_size_d, ll_lon, ll_lat, tilecode)
  else if tilename.length = 17 ∨ tilename.length = 18 then do
    let subgrid_id := tilename.take 2
    if subgrid_id ≠ c.tag then .error (.valueError c.msg1)
    else do
    let sampling ← decode_sampling (pySlice tilename 2 6)
    if ¬ npIsClose sampling c.sampling then .error (.valueError c.msg1)
    else do
    let tile_size_d ← pyIntE (splitLast 'T' tilename)
    if tile_size_d ≠ c.tile_xsize_m then .error (.valueError c.msg1)
    else do
    let ll_lon := (← pyIntE (pySlice tilename 8 11)) - 180
    if ll_lon % tf ≠ 0 then .error (.valueError c.msg2)
    else do
    let ll_lat := (← pyIntE (pySlice tilename 12 15)) - 90
    if ll_lat % tf ≠ 0 then .error (.valueError c.msg2)
    else do
    let tilecode := 'T' :: splitLast 'T' tilename
    if tilecode ≠ c.tiletype then .error (.valueError c.msg1)
    else .ok (subgrid_id, sampling, tile_size_d, ll_lon, ll_lat, tilecode)
  else .error (.valueError c.msg1)

/-- `LatLonTilingSystem.check_tilename`: decode (propagating its error) and
report `True`. -/
def check_tilename (c : Core) (tilename : PyStr) : Except PyError Bool := do
  let _ ← decode_tilename c tilename
  .ok true

/-- `LatLonTilingSystem.tilename2short`.  When the validated name does not
have length 17, the Python function reaches `return shortform` with the local
`shortform` never assigned, raising `UnboundLocalError`. -/
def tilename2short (c : Core) (longform : PyStr) : Except PyError PyStr := do
  let _ ← check_tilename c longform
  if longform.length = 17 then .ok (longform.drop 7)
  else .error (.unboundLocalError (pys "shortform"))

/-- `LatLonTilingSystem.tilename2lowerleft`. -/
def tilename2lowerleft (c : Core) (tilename : PyStr) : Except PyError (ℤ × ℤ) := do
  let r ← decode_tilename c tilename
  .ok (r.2.2.2.1, r.2.2.2.2.1)

/-- `LatLonTilingSystem.encode_tilename`. -/
def encode_tilename (c : Core) (ll_lon ll_lat : ℚ) (sampling : ℚ) (tilecode : PyStr)
    (shortform : Bool) : Except PyError PyStr := do
  let sstr ← encode_sampling sampling
  let tilename := c.tag ++ sstr ++ pys "_E" ++ fmt03d (pyTrunc ll_lon + 180)
                    ++ pys "N" ++ fmt03d (pyTrunc ll_lat + 90) ++ tilecode
  if shortform then tilename2short c tilename else .ok tilename

/-- `LatLonTilingSystem._encode_tilename`: encode with the own sampling and
tile code of the system. -/
def encode_tilename_self (c : Core) (ll_lon ll_lat : ℚ) (shortform : Bool) :
    Except PyError PyStr :=
  encode_tilename c ll_lon ll_lat c.sampling c.tiletype shortform

/-- `LatLonTilingSystem.check_tile_covers_land`; `land_tiles` stands for
`list_tiles_covering_land()`, the land-tile set of the configured size class read
from the external static dataset. -/
def check_tile_covers_land (c : Core) (land_tiles : List PyStr) (tilename : PyStr) :
    Except PyError Bool := do
  let valid ← check_tilename c tilename
  if valid then do
    let short ← tilename2short c tilename
    .ok (land_tiles.contains short)
  else
    -- check_tilename only returns True or raises; Python would return None here
    .ok false

/-- `LatLonTile`: the fields its constructor sets. -/
structure LatLonTile where
  name : PyStr
  ll_lon : ℚ
  ll_lat : ℚ
  covers_land : Bool
  deriving DecidableEq, Repr

/-- `LatLonTilingSystem.create_tile`. -/
def create_tile (c : Core) (land_tiles : List PyStr) (name : Option PyStr)
    (lon lat : Option ℚ) : Except PyError LatLonTile := do
  let ll : ℚ × ℚ ←
    match lon, lat, name with
    | some lo, some la, none => pure (round_lonlat2lowerleft c lo la)
    | none, none, some nm => do
        let p ← tilename2lowerleft c nm
        pure ((p.1 : ℚ), (p.2 : ℚ))
    | _, _, _ => .error (.attributeError (pys "\"name\" or \"lon\"&\"lat\" must be defined!"))
  let tname ← encode_tilename_self c ll.1 ll.2 false
  let covers ← check_tile_covers_land c land_tiles tname
  .ok { name := tname, ll_lon := ll.1, ll_lat := ll.2, covers_land := covers }

/-- `LatLonTilingSystem.find_overlapping_tilenames`.  The duplicated `T6`
branch of the tiletype-only lookup is kept as in the source (its second arm,
sampling `0.002`, is unreachable), and with both arguments `None` the local
`sampling` is read before assignment. -/
def find_overlapping_tilenames (c : Core) (tilename : PyStr) (target_sampling : Option ℚ)
    (target_tiletype : Option PyStr) : Except PyError (List PyStr) := do
  let shortform := target_sampling.isNone
  let sampling : ℚ ←
    match target_sampling, target_tiletype with
    | some ts, none => pure ts
    | none, some tt =>
        if tt = pys "T1" then pure 0.0001
        else if tt = pys "T3" then pure 0.0003
        else if tt = pys "T6" then pure 0.0006
        else if tt = pys "T6" then pure 0.002
        else .error (.valueError c.msg3)
    | some ts, some _ => pure ts
    | none, none => .error (.unboundLocalError (pys "sampling"))
  let tcore ← mkCore sampling
  let target_tiletype := tcore.tiletype
  let target_tilesize := tcore.tile_xsize_m
  let r ← decode_tilename c tilename
  let src_tilesize_d := r.2.2.1
  let src_ll_lon := r.2.2.2.1
  let src_ll_lat := r.2.2.2.2.1
  let src_tiletype := r.2.2.2.2.2
  if pyStrGe target_tiletype src_tiletype then do
    let t_east := (src_ll_lon + 180) / target_tilesize * target_tilesize - 180
    let t_north := (src_ll_lat + 90) / target_tilesize * target_tilesize - 90
    let nm ← encode_tilename tcore (t_east : ℚ) (t_north : ℚ) sampling target_tiletype shortform
    .ok [nm]
  else
    ((List.range (src_tilesize_d / target_tilesize).toNat).flatMap
      (fun i => (List.range (src_tilesize_d / target_tilesize).toNat).map (fun j => (i, j)))).mapM
      (fun p => encode_tilename tcore
        ((src_ll_lon : ℚ) + (p.1 : ℚ) * (target_tilesize : ℚ))
        ((src_ll_lat : ℚ) + (p.2 : ℚ) * (target_tilesize : ℚ))
        sampling target_tiletype shortform)

/-- The candidate lower-left lattice enumerated by
`LatLonSubgrid.search_tiles_in_geometry`, as a function of the intersection
envelope `(minX, maxX, minY, maxY)` of the intersection geometry: `lon_min`/`lat_min` from
`int(envelope) // tilesize * tilesize`, `lon_max`/`lat_max` one step beyond,
then `np.arange` over both axes and their cartesian product. -/
def search_candidate_lowerlefts (c : Core) (envelope : ℚ × ℚ × ℚ × ℚ) : List (ℤ × ℤ) :=
  let lon_min := pyTrunc envelope.1 / c.tile_xsize_m * c.tile_xsize_m
  let lon_max := (pyTrunc envelope.2.1 / c.tile_xsize_m + 1) * c.tile_xsize_m
  let lat_min := pyTrunc envelope.2.2.1 / c.tile_ysize_m * c.tile_ysize_m
  let lat_max := (pyTrunc envelope.2.2.2 / c.tile_ysize_m + 1) * c.tile_ysize_m
  let lonr := intArange lon_min (lon_max + c.tile_xsize_m) c.tile_xsize_m
  let latr := intArange lat_min (lat_max + c.tile_ysize_m) c.tile_ysize_m
  lonr.flatMap (fun lon => latr.map (fun lat => (lon, lat)))

/-- An axis-aligned rectangle in lon/lat. -/
structure Rect where
  xmin : ℚ
  ymin : ℚ
  xmax : ℚ
  ymax : ℚ
  deriving DecidableEq, Repr

/-- The candidate tile polygon built by `search_tiles_in_geometry`: extent
`(lon, lat, lon + tile_xsize_m, lat + tile_xsize_m)` (the x size is used for
both axes, as in the source). -/
def tile_polygon (c : Core) (lon lat : ℤ) : Rect :=
  ⟨(lon : ℚ), (lat : ℚ), (lon : ℚ) + (c.tile_xsize_m : ℚ), (lat : ℚ) + (c.tile_xsize_m : ℚ)⟩

/-- Closed-rectangle intersection test (`OGRGeometry.Intersects` restricted to
two axis-aligned rectangles). -/
def rectIntersects (a b : Rect) : Bool :=
  decide (a.xmin ≤ b.xmax ∧ b.xmin ≤ a.xmax ∧ a.ymin ≤ b.ymax ∧ b.ymin ≤ a.ymax)

end LatLonGridPy
namespace LatLonGridPy

attribute [local semireducible] Rat.add Rat.mul Rat.sub Rat.inv Rat.ofScientific

instance {ε α : Type} [DecidableEq ε] [DecidableEq α] : DecidableEq (Except ε α) := fun a b =>
  match a, b with
  | .ok x, .ok y =>
    if h : x = y then .isTrue (by rw [h]) else .isFalse (fun hh => h (Except.ok.inj hh))
  | .error x, .error y =>
    if h : x = y then .isTrue (by rw [h]) else .isFalse (fun hh => h (Except.error.inj hh))
  | .ok _, .error _ => .isFalse (fun hh => Except.noConfusion hh)
  | .error _, .ok _ => .isFalse (fun hh => Except.noConfusion hh)

theorem pySplit_ne_nil (sep : Char) (l : List Char) : pySplit sep l ≠ [] := by
  induction l with
  | nil => simp [pySplit]
  | cons c rest ih =>
    simp only [pySplit]
    split
    · simp
    · cases h : pySplit sep rest with
      | nil => simp
      | cons t ts => simp

theorem pySplit_of_not_mem {sep : Char} {l : List Char} (h : sep ∉ l) : pySplit sep l = [l] := by
  induction l with
  | nil => rfl
  | cons c rest ih =>
    simp only [List.mem_cons, not_or] at h
    simp only [pySplit, if_neg (fun hc : c = sep => h.1 hc.symm), ih h.2]

theorem two_le_length_pySplit {sep : Char} {l : List Char} (h : sep ∈ l) :
    2 ≤ (pySplit sep l).length := by
  induction l with
  | nil => simp at h
  | cons c rest ih =>
    simp only [pySplit]
    by_cases hc : c = sep
    · rw [if_pos hc]
      have := pySplit_ne_nil sep rest
      cases hr : pySplit sep rest with
      | nil => exact absurd hr this
      | cons t ts => simp
    · rw [if_neg hc]
      have hmem : sep ∈ rest := by
        rcases List.mem_cons.mp h with h1 | h2
        · exact absurd h1.symm hc
        · exact h2
      cases hr : pySplit sep rest with
      | nil => exact absurd hr (pySplit_ne_nil sep rest)
      | cons t ts =>
        have := ih hmem
        rw [hr] at this
        simpa using this

theorem getLastD_of_ne_nil {α : Type} {l : List α} (h : l ≠ []) (x y : α) :
    l.getLastD x = l.getLastD y := by
  cases l with
  | nil => exact absurd rfl h
  | cons a t => rw [List.getLastD_cons, List.getLastD_cons]

theorem splitLast_cons_sep (sep : Char) (r : List Char) :
    splitLast sep (sep :: r) = splitLast sep r := by
  simp only [splitLast, pySplit, if_pos rfl]
  cases h : pySplit sep r with
  | nil => exact absurd h (pySplit_ne_nil sep r)
  | cons t ts => simp [List.getLastD]

theorem splitLast_of_not_mem {sep : Char} {l : List Char} (h : sep ∉ l) :
    splitLast sep l = l := by
  simp [splitLast, pySplit_of_not_mem h]

theorem splitLast_append_of_mem {sep : Char} (l : List Char) {r : List Char} (h : sep ∈ r) :
    splitLast sep (l ++ r) = splitLast sep r := by
  induction l with
  | nil => rfl
  | cons c cl ih =>
    by_cases hc : c = sep
    · subst hc
      rw [List.cons_append, splitLast_cons_sep, ih]
    · rw [List.cons_append]
      have hmem : sep ∈ cl ++ r := List.mem_append_right cl h
      have h2 : 2 ≤ (pySplit sep (cl ++ r)).length := two_le_length_pySplit hmem
      simp only [splitLast, pySplit, if_neg hc] at ih ⊢
      cases hps : pySplit sep (cl ++ r) with
      | nil => exact absurd hps (pySplit_ne_nil sep _)
      | cons t ts =>
        rw [hps] at h2 ih
        have hts : ts ≠ [] := by
          cases ts with
          | nil => simp at h2
          | cons a b => simp
        calc ((c :: t) :: ts).getLastD []
            = ts.getLastD (c :: t) := List.getLastD_cons _ _ _
          _ = ts.getLastD t := getLastD_of_ne_nil hts _ _
          _ = (t :: ts).getLastD [] := (List.getLastD_cons _ _ _).symm
          _ = splitLast sep r := ih

theorem splitLast_sandwich {sep : Char} (l : List Char) {r : List Char} (hr : sep ∉ r) :
    splitLast sep (l ++ sep :: r) = r := by
  rw [splitLast_append_of_mem l (List.mem_cons_self sep r), splitLast_cons_sep,
    splitLast_of_not_mem hr]

set_option maxRecDepth 40000

theorem pyInt_pad3 : ∀ n : ℕ, n < 360 → pyInt (pad3 n) = some (n : ℤ) := by decide

theorem fmt03d_pad3 : ∀ n : ℕ, n < 360 → fmt03d (n : ℤ) = pad3 n := by decide

end LatLonGridPy

namespace LatLonGridPy

attribute [local semireducible] Rat.add Rat.mul Rat.sub Rat.inv Rat.ofScientific

set_option maxRecDepth 40000

theorem bind_ok {ε α β : Type} (a : α) (f : α → Except ε β) :
    (Except.ok a >>= f) = f a := rfl

theorem bind_err {ε α β : Type} (e : ε) (f : α → Except ε β) :
    (Except.error e >>= f) = Except.error e := rfl

theorem decode_short_1digit (c : Core) (t1 : Char) (n m : ℕ)
    (hn : n < 360) (hm : m < 180)
    (htc : c.tiletype = ['T', t1])
    (ht1 : ¬ t1 = 'T')
    (hsz : pyInt [t1] = some c.tile_xsize_m)
    (hlon : ((n : ℤ) - 180) % c.tile_ysize_m = 0)
    (hlat : ((m : ℤ) - 90) % c.tile_ysize_m = 0) :
    decode_tilename c (('E' :: pad3 n) ++ ('N' :: pad3 m) ++ ('T' :: [t1]))
      = .ok (c.tag, c.sampling, c.tile_xsize_m, (n : ℤ) - 180, (m : ℤ) - 90, ['T', t1]) := by
  have hsplit : splitLast 'T' (((('E' :: pad3 n) ++ ('N' :: pad3 m)) ++ ('T' :: [t1]))) = [t1] := by
    apply splitLast_sandwich
    simp only [List.mem_singleton]
    exact fun h => ht1 h.symm
  have hlen : ((('E' :: pad3 n) ++ ('N' :: pad3 m)) ++ ('T' :: [t1])).length = 10 := rfl
  have hs14 : pySlice ((('E' :: pad3 n) ++ ('N' :: pad3 m)) ++ ('T' :: [t1])) 1 4 = pad3 n := rfl
  have hs58 : pySlice ((('E' :: pad3 n) ++ ('N' :: pad3 m)) ++ ('T' :: [t1])) 5 8 = pad3 m := rfl
  simp only [decode_tilename, hlen, hsplit, hs14, hs58, pyIntE, hsz, pyInt_pad3 n hn,
    pyInt_pad3 m (by omega), bind_ok, bind_err, htc]
  simp [hlon, hlat]

theorem npIsClose_self (a : ℚ) : npIsClose a a = true := by
  simp only [npIsClose, sub_self, abs_zero, decide_eq_true_eq]
  positivity

theorem pyTrunc_intCast (n : ℤ) : pyTrunc (n : ℚ) = n := by
  unfold pyTrunc
  split <;> simp

theorem decode_long_1digit (c : Core) (s1 s2 s3 s4 t1 : Char) (n m : ℕ)
    (hn : n < 360) (hm : m < 180)
    (htag : c.tag = ['G', 'L'])
    (htc : c.tiletype = ['T', t1])
    (ht1 : ¬ t1 = 'T')
    (hdec : decode_sampling [s1, s2, s3, s4] = .ok c.sampling)
    (hsz : pyInt [t1] = some c.tile_xsize_m)
    (hlon : ((n : ℤ) - 180) % c.tile_ysize_m = 0)
    (hlat : ((m : ℤ) - 90) % c.tile_ysize_m = 0) :
    decode_tilename c
        (('G' :: 'L' :: [s1, s2, s3, s4]) ++ ('_' :: 'E' :: pad3 n) ++ ('N' :: pad3 m) ++ ('T' :: [t1]))
      = .ok (['G', 'L'], c.sampling, c.tile_xsize_m, (n : ℤ) - 180, (m : ℤ) - 90, ['T', t1]) := by
  have hsplit : splitLast 'T'
      ((('G' :: 'L' :: [s1, s2, s3, s4]) ++ ('_' :: 'E' :: pad3 n) ++ ('N' :: pad3 m)) ++ ('T' :: [t1]))
      = [t1] := by
    apply splitLast_sandwich
    simp only [List.mem_singleton]
    exact fun h => ht1 h.symm
  have hname : (('G' :: 'L' :: [s1, s2, s3, s4]) ++ ('_' :: 'E' :: pad3 n) ++ ('N' :: pad3 m) ++ ('T' :: [t1]))
      = ((('G' :: 'L' :: [s1, s2, s3, s4]) ++ ('_' :: 'E' :: pad3 n) ++ ('N' :: pad3 m)) ++ ('T' :: [t1])) := rfl
  have hlen : ((('G' :: 'L' :: [s1, s2, s3, s4]) ++ ('_' :: 'E' :: pad3 n) ++ ('N' :: pad3 m)) ++ ('T' :: [t1])).length = 17 := rfl
  have htake : ((('G' :: 'L' :: [s1, s2, s3, s4]) ++ ('_' :: 'E' :: pad3 n) ++ ('N' :: pad3 m)) ++ ('T' :: [t1])).take 2 = ['G', 'L'] := rfl
  have hs26 : pySlice ((('G' :: 'L' :: [s1, s2, s3, s4]) ++ ('_' :: 'E' :: pad3 n) ++ ('N' :: pad3 m)) ++ ('T' :: [t1])) 2 6 = [s1, s2, s3, s4] := rfl
  have hs811 : pySlice ((('G' :: 'L' :: [s1, s2, s3, s4]) ++ ('_' :: 'E' :: pad3 n) ++ ('N' :: pad3 m)) ++ ('T' :: [t1])) 8 11 = pad3 n := rfl
  have hs1215 : pySlice ((('G' :: 'L' :: [s1, s2, s3, s4]) ++ ('_' :: 'E' :: pad3 n) ++ ('N' :: pad3 m)) ++ ('T' :: [t1])) 12 15 = pad3 m := rfl
  rw [hname]
  simp only [decode_tilename, hlen, hsplit, htake, htag, hs26, hs811, hs1215, hdec,
    pyIntE, hsz, pyInt_pad3 n hn, pyInt_pad3 m (by omega), bind_ok, bind_err, htc,
    npIsClose_self]
  simp [hlon, hlat]

theorem decode_long_2digit (c : Core) (s1 s2 s3 s4 t1 t2 : Char) (n m : ℕ)
    (hn : n < 360) (hm : m < 180)
    (htag : c.tag = ['G', 'L'])
    (htc : c.tiletype = ['T', t1, t2])
    (ht1 : ¬ t1 = 'T') (ht2 : ¬ t2 = 'T')
    (hdec : decode_sampling [s1, s2, s3, s4] = .ok c.sampling)
    (hsz : pyInt [t1, t2] = some c.tile_xsize_m)
    (hlon : ((n : ℤ) - 180) % c.tile_ysize_m = 0)
    (hlat : ((m : ℤ) - 90) % c.tile_ysize_m = 0) :
    decode_tilename c
        (('G' :: 'L' :: [s1, s2, s3, s4]) ++ ('_' :: 'E' :: pad3 n) ++ ('N' :: pad3 m) ++ ('T' :: [t1, t2]))
      = .ok (['G', 'L'], c.sampling, c.tile_xsize_m, (n : ℤ) - 180, (m : ℤ) - 90, ['T', t1, t2]) := by
  have hsplit : splitLast 'T'
      ((('G' :: 'L' :: [s1, s2, s3, s4]) ++ ('_' :: 'E' :: pad3 n) ++ ('N' :: pad3 m)) ++ ('T' :: [t1, t2]))
      = [t1, t2] := by
    apply splitLast_sandwich
    intro hmem
    rcases List.mem_cons.mp hmem with h | h
    · exact ht1 h.symm
    · rcases List.mem_cons.mp h with h2 | h2
      · exact ht2 h2.symm
      · simp at h2
  have hname : (('G' :: 'L' :: [s1, s2, s3, s4]) ++ ('_' :: 'E' :: pad3 n) ++ ('N' :: pad3 m) ++ ('T' :: [t1, t2]))
      = ((('G' :: 'L' :: [s1, s2, s3, s4]) ++ ('_' :: 'E' :: pad3 n) ++ ('N' :: pad3 m)) ++ ('T' :: [t1, t2])) := rfl
  have hlen : ((('G' :: 'L' :: [s1, s2, s3, s4]) ++ ('_' :: 'E' :: pad3 n) ++ ('N' :: pad3 m)) ++ ('T' :: [t1, t2])).length = 18 := rfl
  have htake : ((('G' :: 'L' :: [s1, s2, s3, s4]) ++ ('_' :: 'E' :: pad3 n) ++ ('N' :: pad3 m)) ++ ('T' :: [t1, t2])).take 2 = ['G', 'L'] := rfl
  have hs26 : pySlice ((('G' :: 'L' :: [s1, s2, s3, s4]) ++ ('_' :: 'E' :: pad3 n) ++ ('N' :: pad3 m)) ++ ('T' :: [t1, t2])) 2 6 = [s1, s2, s3, s4] := rfl
  have hs811 : pySlice ((('G' :: 'L' :: [s1, s2, s3, s4]) ++ ('_' :: 'E' :: pad3 n) ++ ('N' :: pad3 m)) ++ ('T' :: [t1, t2])) 8 11 = pad3 n := rfl
  have hs1215 : pySlice ((('G' :: 'L' :: [s1, s2, s3, s4]) ++ ('_' :: 'E' :: pad3 n) ++ ('N' :: pad3 m)) ++ ('T' :: [t1, t2])) 12 15 = pad3 m := rfl
  rw [hname]
  simp only [decode_tilename, hlen, hsplit, htake, htag, hs26, hs811, hs1215, hdec,
    pyIntE, hsz, pyInt_pad3 n hn, pyInt_pad3 m (by omega), bind_ok, bind_err, htc,
    npIsClose_self]
  simp [hlon, hlat]

theorem decode_long_isclose_fail (c : Core) (s1 s2 s3 s4 t1 : Char) (q : ℚ) (n m : ℕ)
    (htag : c.tag = ['G', 'L'])
    (hdec : decode_sampling [s1, s2, s3, s4] = .ok q)
    (hfar : npIsClose q c.sampling = false) :
    decode_tilename c
        (('G' :: 'L' :: [s1, s2, s3, s4]) ++ ('_' :: 'E' :: pad3 n) ++ ('N' :: pad3 m) ++ ('T' :: [t1]))
      = .error (.valueError c.msg1) := by
  have hname : (('G' :: 'L' :: [s1, s2, s3, s4]) ++ ('_' :: 'E' :: pad3 n) ++ ('N' :: pad3 m) ++ ('T' :: [t1]))
      = ((('G' :: 'L' :: [s1, s2, s3, s4]) ++ ('_' :: 'E' :: pad3 n) ++ ('N' :: pad3 m)) ++ ('T' :: [t1])) := rfl
  have hlen : ((('G' :: 'L' :: [s1, s2, s3, s4]) ++ ('_' :: 'E' :: pad3 n) ++ ('N' :: pad3 m)) ++ ('T' :: [t1])).length = 17 := rfl
  have htake : ((('G' :: 'L' :: [s1, s2, s3, s4]) ++ ('_' :: 'E' :: pad3 n) ++ ('N' :: pad3 m)) ++ ('T' :: [t1])).take 2 = ['G', 'L'] := rfl
  have hs26 : pySlice ((('G' :: 'L' :: [s1, s2, s3, s4]) ++ ('_' :: 'E' :: pad3 n) ++ ('N' :: pad3 m)) ++ ('T' :: [t1])) 2 6 = [s1, s2, s3, s4] := rfl
  rw [hname]
  simp only [decode_tilename, hlen, htake, htag, hs26, hdec, bind_ok, bind_err, hfar]
  simp

theorem encode_long_eq (c : Core) (s : ℚ) (sstr : PyStr) (ll_lon ll_lat : ℤ)
    (henc : encode_sampling s = .ok sstr)
    (h1 : -180 ≤ ll_lon) (h2 : ll_lon < 180) (h3 : -90 ≤ ll_lat) (h4 : ll_lat < 90) :
    encode_tilename c (ll_lon : ℚ) (ll_lat : ℚ) s c.tiletype false
      = .ok (c.tag ++ sstr ++ pys "_E" ++ pad3 (ll_lon + 180).toNat
              ++ pys "N" ++ pad3 (ll_lat + 90).toNat ++ c.tiletype) := by
  have e1 : fmt03d (pyTrunc (ll_lon : ℚ) + 180) = pad3 (ll_lon + 180).toNat := by
    rw [pyTrunc_intCast]
    rw [show ll_lon + 180 = (((ll_lon + 180).toNat : ℕ) : ℤ) by omega]
    exact fmt03d_pad3 _ (by omega)
  have e2 : fmt03d (pyTrunc (ll_lat : ℚ) + 90) = pad3 (ll_lat + 90).toNat := by
    rw [pyTrunc_intCast]
    rw [show ll_lat + 90 = (((ll_lat + 90).toNat : ℕ) : ℤ) by omega]
    exact fmt03d_pad3 _ (by omega)
  simp only [encode_tilename, henc, bind_ok, e1, e2, Bool.false_eq_true, if_false]

theorem tilename2short_of_len17 (c : Core) (nm : PyStr)
    (r : PyStr × ℚ × ℤ × ℤ × ℤ × PyStr)
    (hdec : decode_tilename c nm = .ok r) (hlen : nm.length = 17) :
    tilename2short c nm = .ok (nm.drop 7) := by
  simp [tilename2short, check_tilename, hdec, bind_ok, hlen]

theorem tilename2short_of_len18 (c : Core) (nm : PyStr)
    (r : PyStr × ℚ × ℤ × ℤ × ℤ × PyStr)
    (hdec : decode_tilename c nm = .ok r) (hlen : nm.length = 18) :
    tilename2short c nm = .error (.unboundLocalError (pys "shortform")) := by
  simp [tilename2short, check_tilename, hdec, bind_ok, hlen]

theorem tilename2short_of_err (c : Core) (nm : PyStr) (e : PyError)
    (hdec : decode_tilename c nm = .error e) :
    tilename2short c nm = .error e := by
  simp [tilename2short, check_tilename, hdec, bind_err]

theorem encode_tilename_shortform (c : Core) (a b s : ℚ) (tc : PyStr) :
    encode_tilename c a b s tc true
      = (encode_tilename c a b s tc false) >>= tilename2short c := by
  unfold encode_tilename
  cases h : encode_sampling s <;> rfl

theorem encode_long_eq_1digit (c : Core) (s : ℚ) (s1 s2 s3 s4 t1 : Char) (ll_lon ll_lat : ℤ)
    (henc : encode_sampling s = .ok [s1, s2, s3, s4])
    (htag : c.tag = ['G', 'L']) (htc : c.tiletype = ['T', t1])
    (h1 : -180 ≤ ll_lon) (h2 : ll_lon < 180) (h3 : -90 ≤ ll_lat) (h4 : ll_lat < 90) :
    encode_tilename c (ll_lon : ℚ) (ll_lat : ℚ) s c.tiletype false
      = .ok (('G' :: 'L' :: [s1, s2, s3, s4]) ++ ('_' :: 'E' :: pad3 (ll_lon + 180).toNat)
          ++ ('N' :: pad3 (ll_lat + 90).toNat) ++ ('T' :: [t1])) := by
  rw [encode_long_eq c s [s1, s2, s3, s4] ll_lon ll_lat henc h1 h2 h3 h4, htag, htc]
  exact rfl

theorem encode_long_eq_2digit (c : Core) (s : ℚ) (s1 s2 s3 s4 t1 t2 : Char) (ll_lon ll_lat : ℤ)
    (henc : encode_sampling s = .ok [s1, s2, s3, s4])
    (htag : c.tag = ['G', 'L']) (htc : c.tiletype = ['T', t1, t2])
    (h1 : -180 ≤ ll_lon) (h2 : ll_lon < 180) (h3 : -90 ≤ ll_lat) (h4 : ll_lat < 90) :
    encode_tilename c (ll_lon : ℚ) (ll_lat : ℚ) s c.tiletype false
      = .ok (('G' :: 'L' :: [s1, s2, s3, s4]) ++ ('_' :: 'E' :: pad3 (ll_lon + 180).toNat)
          ++ ('N' :: pad3 (ll_lat + 90).toNat) ++ ('T' :: [t1, t2])) := by
  rw [encode_long_eq c s [s1, s2, s3, s4] ll_lon ll_lat henc h1 h2 h3 h4, htag, htc]
  exact rfl

theorem roundtrip_1digit (c : Core) (s : ℚ) (s1 s2 s3 s4 t1 : Char)
    (henc : encode_sampling s = .ok [s1, s2, s3, s4])
    (htag : c.tag = ['G', 'L'])
    (htc : c.tiletype = ['T', t1])
    (ht1 : ¬ t1 = 'T')
    (hdec : decode_sampling [s1, s2, s3, s4] = .ok c.sampling)
    (hsmp : c.sampling = s)
    (hsz : pyInt [t1] = some c.tile_xsize_m)
    (ll_lon ll_lat : ℤ)
    (hdlon : ll_lon % c.tile_ysize_m = 0) (hdlat : ll_lat % c.tile_ysize_m = 0)
    (h1 : -180 ≤ ll_lon) (h2 : ll_lon < 180) (h3 : -90 ≤ ll_lat) (h4 : ll_lat < 90) :
    (∃ nm, encode_tilename c (ll_lon : ℚ) (ll_lat : ℚ) s c.tiletype false = .ok nm ∧
        decode_tilename c nm = .ok (c.tag, s, c.tile_xsize_m, ll_lon, ll_lat, c.tiletype)) ∧
    (∃ nm, encode_tilename c (ll_lon : ℚ) (ll_lat : ℚ) s c.tiletype true = .ok nm ∧
        decode_tilename c nm = .ok (c.tag, s, c.tile_xsize_m, ll_lon, ll_lat, c.tiletype)) := by
  have hn : (ll_lon + 180).toNat < 360 := by omega
  have hm : (ll_lat + 90).toNat < 180 := by omega
  have hnz : (((ll_lon + 180).toNat : ℕ) : ℤ) = ll_lon + 180 := by omega
  have hmz : (((ll_lat + 90).toNat : ℕ) : ℤ) = ll_lat + 90 := by omega
  have hdecoded := decode_long_1digit c s1 s2 s3 s4 t1 (ll_lon + 180).toNat (ll_lat + 90).toNat
    hn hm htag htc ht1 hdec hsz (by rw [hnz]; simpa using hdlon) (by rw [hmz]; simpa using hdlat)
  rw [hnz] at hdecoded
  rw [hmz] at hdecoded
  rw [show ll_lon + 180 - 180 = ll_lon by ring, show ll_lat + 90 - 90 = ll_lat by ring,
    hsmp] at hdecoded
  have hlong := encode_long_eq_1digit c s s1 s2 s3 s4 t1 ll_lon ll_lat henc htag htc h1 h2 h3 h4
  constructor
  · refine ⟨_, hlong, ?_⟩
    rw [htag, htc]
    exact hdecoded
  · have hshortname : ((('G' :: 'L' :: [s1, s2, s3, s4]) ++ ('_' :: 'E' :: pad3 (ll_lon + 180).toNat)
          ++ ('N' :: pad3 (ll_lat + 90).toNat) ++ ('T' :: [t1])).drop 7)
        = (('E' :: pad3 (ll_lon + 180).toNat) ++ ('N' :: pad3 (ll_lat + 90).toNat) ++ ('T' :: [t1])) := rfl
    have hshortdec := decode_short_1digit c t1 (ll_lon + 180).toNat (ll_lat + 90).toNat
      hn hm htc ht1 hsz (by rw [hnz]; simpa using hdlon) (by rw [hmz]; simpa using hdlat)
    rw [hnz, hmz] at hshortdec
    rw [show ll_lon + 180 - 180 = ll_lon by ring, show ll_lat + 90 - 90 = ll_lat by ring,
      hsmp] at hshortdec
    have hslen : ((('G' :: 'L' :: [s1, s2, s3, s4]) ++ ('_' :: 'E' :: pad3 (ll_lon + 180).toNat)
          ++ ('N' :: pad3 (ll_lat + 90).toNat) ++ ('T' :: [t1]))).length = 17 := rfl
    have hshort : encode_tilename c (ll_lon : ℚ) (ll_lat : ℚ) s c.tiletype true
        = .ok (('E' :: pad3 (ll_lon + 180).toNat) ++ ('N' :: pad3 (ll_lat + 90).toNat) ++ ('T' :: [t1])) := by
      rw [encode_tilename_shortform, hlong, bind_ok,
        tilename2short_of_len17 c _ _ hdecoded hslen, hshortname]
    refine ⟨_, hshort, ?_⟩
    rw [htc]
    exact hshortdec

theorem roundtrip_2digit (c : Core) (s : ℚ) (s1 s2 s3 s4 t1 t2 : Char)
    (henc : encode_sampling s = .ok [s1, s2, s3, s4])
    (htag : c.tag = ['G', 'L'])
    (htc : c.tiletype = ['T', t1, t2])
    (ht1 : ¬ t1 = 'T') (ht2 : ¬ t2 = 'T')
    (hdec : decode_sampling [s1, s2, s3, s4] = .ok c.sampling)
    (hsmp : c.sampling = s)
    (hsz : pyInt [t1, t2] = some c.tile_xsize_m)
    (ll_lon ll_lat : ℤ)
    (hdlon : ll_lon % c.tile_ysize_m = 0) (hdlat : ll_lat % c.tile_ysize_m = 0)
    (h1 : -180 ≤ ll_lon) (h2 : ll_lon < 180) (h3 : -90 ≤ ll_lat) (h4 : ll_lat < 90) :
    (∃ nm, encode_tilename c (ll_lon : ℚ) (ll_lat : ℚ) s c.tiletype false = .ok nm ∧
        decode_tilename c nm = .ok (c.tag, s, c.tile_xsize_m, ll_lon, ll_lat, c.tiletype)) ∧
    encode_tilename c (ll_lon : ℚ) (ll_lat : ℚ) s c.tiletype true
      = .error (.unboundLocalError (pys "shortform")) := by
  have hn : (ll_lon + 180).toNat < 360 := by omega
  have hm : (ll_lat + 90).toNat < 180 := by omega
  have hnz : (((ll_lon + 180).toNat : ℕ) : ℤ) = ll_lon + 180 := by omega
  have hmz : (((ll_lat + 90).toNat : ℕ) : ℤ) = ll_lat + 90 := by omega
  have hdecoded := decode_long_2digit c s1 s2 s3 s4 t1 t2 (ll_lon + 180).toNat (ll_lat + 90).toNat
    hn hm htag htc ht1 ht2 hdec hsz (by rw [hnz]; simpa using hdlon) (by rw [hmz]; simpa using hdlat)
  rw [hnz] at hdecoded
  rw [hmz] at hdecoded
  rw [show ll_lon + 180 - 180 = ll_lon by ring, show ll_lat + 90 - 90 = ll_lat by ring,
    hsmp] at hdecoded
  have hlong := encode_long_eq_2digit c s s1 s2 s3 s4 t1 t2 ll_lon ll_lat henc htag htc h1 h2 h3 h4
  constructor
  · refine ⟨_, hlong, ?_⟩
    rw [htag, htc]
    exact hdecoded
  · have hslen : ((('G' :: 'L' :: [s1, s2, s3, s4]) ++ ('_' :: 'E' :: pad3 (ll_lon + 180).toNat)
          ++ ('N' :: pad3 (ll_lat + 90).toNat) ++ ('T' :: [t1, t2]))).length = 18 := rfl
    rw [encode_tilename_shortform, hlong, bind_ok,
      tilename2short_of_len18 c _ _ hdecoded hslen]

theorem roundtrip_sampling_lost (c : Core) (s : ℚ) (s1 s2 s3 s4 : Char) (q : ℚ) (tc : Char)
    (henc : encode_sampling s = .ok [s1, s2, s3, s4])
    (htag : c.tag = ['G', 'L'])
    (htc : c.tiletype = ['T', tc])
    (hdec : decode_sampling [s1, s2, s3, s4] = .ok q)
    (hfar : npIsClose q c.sampling = false)
    (ll_lon ll_lat : ℤ)
    (h1 : -180 ≤ ll_lon) (h2 : ll_lon < 180) (h3 : -90 ≤ ll_lat) (h4 : ll_lat < 90) :
    (∃ nm, encode_tilename c (ll_lon : ℚ) (ll_lat : ℚ) s c.tiletype false = .ok nm ∧
        decode_tilename c nm = .error (.valueError c.msg1)) ∧
    encode_tilename c (ll_lon : ℚ) (ll_lat : ℚ) s c.tiletype true
      = .error (.valueError c.msg1) := by
  have hfail := decode_long_isclose_fail c s1 s2 s3 s4 tc q
    (ll_lon + 180).toNat (ll_lat + 90).toNat htag hdec hfar
  have hlong := encode_long_eq_1digit c s s1 s2 s3 s4 tc ll_lon ll_lat henc htag htc h1 h2 h3 h4
  refine ⟨⟨_, hlong, hfail⟩, ?_⟩
  rw [encode_tilename_shortform, hlong, bind_ok, tilename2short_of_err c _ _ hfail]

/-- C3: for every lower-left pair aligned to the tile size of the tiling system and
in range, decoding the encoded tilename returns exactly the tuple
`(tag, sampling, tilesize, ll_lon, ll_lat, size_class)` — amended: this holds
for the long form whenever the sampling is not `0.0016` (whose sampling code
is lossy, so decoding rejects the name), and for the short form additionally
only when the size class is not `T18` (whose long names have length 18, on
which `tilename2short` raises `UnboundLocalError`); at sampling `0.0016` the
long name decodes to an error and short-form encoding raises. -/
theorem C3_tilename_roundtrip_amended :
    ∀ s ∈ static_sampling, ∀ c, mkCore s = Except.ok c →
    ∀ ll_lon ll_lat : ℤ,
    ll_lon % c.tile_xsize_m = 0 → ll_lat % c.tile_ysize_m = 0 →
    -180 ≤ ll_lon → ll_lon < 180 → -90 ≤ ll_lat → ll_lat < 90 →
    ((s ≠ 0.0016 →
      ∃ nm, encode_tilename c (ll_lon : ℚ) (ll_lat : ℚ) s c.tiletype false = .ok nm ∧
        decode_tilename c nm = .ok (c.tag, s, c.tile_xsize_m, ll_lon, ll_lat, c.tiletype)) ∧
     (s ≠ 0.0016 → c.tiletype ≠ pys "T18" →
      ∃ nm, encode_tilename c (ll_lon : ℚ) (ll_lat : ℚ) s c.tiletype true = .ok nm ∧
        decode_tilename c nm = .ok (c.tag, s, c.tile_xsize_m, ll_lon, ll_lat, c.tiletype)) ∧
     (s = 0.0016 →
      (∃ nm, encode_tilename c (ll_lon : ℚ) (ll_lat : ℚ) s c.tiletype false = .ok nm ∧
        decode_tilename c nm = .error (.valueError c.msg1)) ∧
      encode_tilename c (ll_lon : ℚ) (ll_lat : ℚ) s c.tiletype true = .error (.valueError c.msg1)) ∧
     (c.tiletype = pys "T18" →
      encode_tilename c (ll_lon : ℚ) (ll_lat : ℚ) s c.tiletype true
        = .error (.unboundLocalError (pys "shortform")))) := by
  intro s hs c hc ll_lon ll_lat hdlon hdlat h1 h2 h3 h4
  fin_cases hs
  · have hcc : c = coreOf 0.0001 := by
      have h0 : mkCore (0.0001 : ℚ) = Except.ok (coreOf 0.0001) := by decide
      rw [h0] at hc
      exact (Except.ok.inj hc).symm
    subst hcc
    have hrt := roundtrip_1digit (coreOf 0.0001) 0.0001 '1' '0' '0' 'U' '1'
      (by decide) (by decide) (by decide) (by decide) (by decide) (by decide) (by decide)
      ll_lon ll_lat hdlon hdlat h1 h2 h3 h4
    exact ⟨fun _ => hrt.1, fun _ _ => hrt.2, fun h16 => absurd h16 (by decide),
      fun hT => absurd hT (by decide)⟩
  · have hcc : c = coreOf 0.00016 := by
      have h0 : mkCore (0.00016 : ℚ) = Except.ok (coreOf 0.00016) := by decide
      rw [h0] at hc
      exact (Except.ok.inj hc).symm
    subst hcc
    have hrt := roundtrip_1digit (coreOf 0.00016) 0.00016 '1' '6' '0' 'U' '1'
      (by decide) (by decide) (by decide) (by decide) (by decide) (by decide) (by decide)
      ll_lon ll_lat hdlon hdlat h1 h2 h3 h4
    exact ⟨fun _ => hrt.1, fun _ _ => hrt.2, fun h16 => absurd h16 (by decide),
      fun hT => absurd hT (by decide)⟩
  · have hcc : c = coreOf 0.0002 := by
      have h0 : mkCore (0.0002 : ℚ) = Except.ok (coreOf 0.0002) := by decide
      rw [h0] at hc
      exact (Except.ok.inj hc).symm
    subst hcc
    have hrt := roundtrip_1digit (coreOf 0.0002) 0.0002 '2' '0' '0' 'U' '1'
      (by decide) (by decide) (by decide) (by decide) (by decide) (by decide) (by decide)
      ll_lon ll_lat hdlon hdlat h1 h2 h3 h4
    exact ⟨fun _ => hrt.1, fun _ _ => hrt.2, fun h16 => absurd h16 (by decide),
      fun hT => absurd hT (by decide)⟩
  · have hcc : c = coreOf 0.0003 := by
      have h0 : mkCore (0.0003 : ℚ) = Except.ok (coreOf 0.0003) := by decide
      rw [h0] at hc
      exact (Except.ok.inj hc).symm
    subst hcc
    have hrt := roundtrip_1digit (coreOf 0.0003) 0.0003 '3' '0' '0' 'U' '3'
      (by decide) (by decide) (by decide) (by decide) (by decide) (by decide) (by decide)
      ll_lon ll_lat hdlon hdlat h1 h2 h3 h4
    exact ⟨fun _ => hrt.1, fun _ _ => hrt.2, fun h16 => absurd h16 (by decide),
      fun hT => absurd hT (by decide)⟩
  · have hcc : c = coreOf 0.0004 := by
      have h0 : mkCore (0.0004 : ℚ) = Except.ok (coreOf 0.0004) := by decide
      rw [h0] at hc
      exact (Except.ok.inj hc).symm
    subst hcc
    have hrt := roundtrip_1digit (coreOf 0.0004) 0.0004 '4' '0' '0' 'U' '3'
      (by decide) (by decide) (by decide) (by decide) (by decide) (by decide) (by decide)
      ll_lon ll_lat hdlon hdlat h1 h2 h3 h4
    exact ⟨fun _ => hrt.1, fun _ _ => hrt.2, fun h16 => absurd h16 (by decide),
      fun hT => absurd hT (by decide)⟩
  · have hcc : c = coreOf 0.0005 := by
      have h0 : mkCore (0.0005 : ℚ) = Except.ok (coreOf 0.0005) := by decide
      rw [h0] at hc
      exact (Except.ok.inj hc).symm
    subst hcc
    have hrt := roundtrip_1digit (coreOf 0.0005) 0.0005 '5' '0' '0' 'U' '3'
      (by decide) (by decide) (by decide) (by decide) (by decide) (by decide) (by decide)
      ll_lon ll_lat hdlon hdlat h1 h2 h3 h4
    exact ⟨fun _ => hrt.1, fun _ _ => hrt.2, fun h16 => absurd h16 (by decide),
      fun hT => absurd hT (by decide)⟩
  · have hcc : c = coreOf 0.0006 := by
      have h0 : mkCore (0.0006 : ℚ) = Except.ok (coreOf 0.0006) := by decide
      rw [h0] at hc
      exact (Except.ok.inj hc).symm
    subst hcc
    have hrt := roundtrip_1digit (coreOf 0.0006) 0.0006 '6' '0' '0' 'U' '6'
      (by decide) (by decide) (by decide) (by decide) (by decide) (by decide) (by decide)
      ll_lon ll_lat hdlon hdlat h1 h2 h3 h4
    exact ⟨fun _ => hrt.1, fun _ _ => hrt.2, fun h16 => absurd h16 (by decide),
      fun hT => absurd hT (by decide)⟩
  · have hcc : c = coreOf 0.0008 := by
      have h0 : mkCore (0.0008 : ℚ) = Except.ok (coreOf 0.0008) := by decide
      rw [h0] at hc
      exact (Except.ok.inj hc).symm
    subst hcc
    have hrt := roundtrip_1digit (coreOf 0.0008) 0.0008 '8' '0' '0' 'U' '6'
      (by decide) (by decide) (by decide) (by decide) (by decide) (by decide) (by decide)
      ll_lon ll_lat hdlon hdlat h1 h2 h3 h4
    exact ⟨fun _ => hrt.1, fun _ _ => hrt.2, fun h16 => absurd h16 (by decide),
      fun hT => absurd hT (by decide)⟩
  · have hcc : c = coreOf 0.001 := by
      have h0 : mkCore (0.001 : ℚ) = Except.ok (coreOf 0.001) := by decide
      rw [h0] at hc
      exact (Except.ok.inj hc).symm
    subst hcc
    have hrt := roundtrip_1digit (coreOf 0.001) 0.001 '0' '0' '1' 'M' '6'
      (by decide) (by decide) (by decide) (by decide) (by decide) (by decide) (by decide)
      ll_lon ll_lat hdlon hdlat h1 h2 h3 h4
    exact ⟨fun _ => hrt.1, fun _ _ => hrt.2, fun h16 => absurd h16 (by decide),
      fun hT => absurd hT (by decide)⟩
  · have hcc : c = coreOf 0.0016 := by
      have h0 : mkCore (0.0016 : ℚ) = Except.ok (coreOf 0.0016) := by decide
      rw [h0] at hc
      exact (Except.ok.inj hc).symm
    subst hcc
    have hrt := roundtrip_sampling_lost (coreOf 0.0016) 0.0016 '0' '0' '1' 'M' (0.001 : ℚ) '6'
      (by decide) (by decide) (by decide) (by decide) (by decide)
      ll_lon ll_lat h1 h2 h3 h4
    exact ⟨fun h => absurd rfl h, fun h _ => absurd rfl h, fun _ => hrt,
      fun hT => absurd hT (by decide)⟩
  · have hcc : c = coreOf 0.002 := by
      have h0 : mkCore (0.002 : ℚ) = Except.ok (coreOf 0.002) := by decide
      rw [h0] at hc
      exact (Except.ok.inj hc).symm
    subst hcc
    have hrt := roundtrip_2digit (coreOf 0.002) 0.002 '0' '0' '2' 'M' '1' '8'
      (by decide) (by decide) (by decide) (by decide) (by decide) (by decide) (by decide) (by decide)
      ll_lon ll_lat hdlon hdlat h1 h2 h3 h4
    exact ⟨fun _ => hrt.1, fun _ hne => absurd (by decide) hne, fun h16 => absurd h16 (by decide),
      fun _ => hrt.2⟩
  · have hcc : c = coreOf 0.003 := by
      have h0 : mkCore (0.003 : ℚ) = Except.ok (coreOf 0.003) := by decide
      rw [h0] at hc
      exact (Except.ok.inj hc).symm
    subst hcc
    have hrt := roundtrip_2digit (coreOf 0.003) 0.003 '0' '0' '3' 'M' '1' '8'
      (by decide) (by decide) (by decide) (by decide) (by decide) (by decide) (by decide) (by decide)
      ll_lon ll_lat hdlon hdlat h1 h2 h3 h4
    exact ⟨fun _ => hrt.1, fun _ hne => absurd (by decide) hne, fun h16 => absurd h16 (by decide),
      fun _ => hrt.2⟩
  · have hcc : c = coreOf 0.004 := by
      have h0 : mkCore (0.004 : ℚ) = Except.ok (coreOf 0.004) := by decide
      rw [h0] at hc
      exact (Except.ok.inj hc).symm
    subst hcc
    have hrt := roundtrip_2digit (coreOf 0.004) 0.004 '0' '0' '4' 'M' '1' '8'
      (by decide) (by decide) (by decide) (by decide) (by decide) (by decide) (by decide) (by decide)
      ll_lon ll_lat hdlon hdlat h1 h2 h3 h4
    exact ⟨fun _ => hrt.1, fun _ hne => absurd (by decide) hne, fun h16 => absurd h16 (by decide),
      fun _ => hrt.2⟩
  · have hcc : c = coreOf 0.005 := by
      have h0 : mkCore (0.005 : ℚ) = Except.ok (coreOf 0.005) := by decide
      rw [h0] at hc
      exact (Except.ok.inj hc).symm
    subst hcc
    have hrt := roundtrip_2digit (coreOf 0.005) 0.005 '0' '0' '5' 'M' '1' '8'
      (by decide) (by decide) (by decide) (by decide) (by decide) (by decide) (by decide) (by decide)
      ll_lon ll_lat hdlon hdlat h1 h2 h3 h4
    exact ⟨fun _ => hrt.1, fun _ hne => absurd (by decide) hne, fun h16 => absurd h16 (by decide),
      fun _ => hrt.2⟩
  · have hcc : c = coreOf 0.006 := by
      have h0 : mkCore (0.006 : ℚ) = Except.ok (coreOf 0.006) := by decide
      rw [h0] at hc
      exact (Except.ok.inj hc).symm
    subst hcc
    have hrt := roundtrip_2digit (coreOf 0.006) 0.006 '0' '0' '6' 'M' '1' '8'
      (by decide) (by decide) (by decide) (by decide) (by decide) (by decide) (by decide) (by decide)
      ll_lon ll_lat hdlon hdlat h1 h2 h3 h4
    exact ⟨fun _ => hrt.1, fun _ hne => absurd (by decide) hne, fun h16 => absurd h16 (by decide),
      fun _ => hrt.2⟩
  · have hcc : c = coreOf 0.008 := by
      have h0 : mkCore (0.008 : ℚ) = Except.ok (coreOf 0.008) := by decide
      rw [h0] at hc
      exact (Except.ok.inj hc).symm
    subst hcc
    have hrt := roundtrip_2digit (coreOf 0.008) 0.008 '0' '0' '8' 'M' '1' '8'
      (by decide) (by decide) (by decide) (by decide) (by decide) (by decide) (by decide) (by decide)
      ll_lon ll_lat hdlon hdlat h1 h2 h3 h4
    exact ⟨fun _ => hrt.1, fun _ hne => absurd (by decide) hne, fun h16 => absurd h16 (by decide),
      fun _ => hrt.2⟩
  · have hcc : c = coreOf 0.01 := by
      have h0 : mkCore (0.01 : ℚ) = Except.ok (coreOf 0.01) := by decide
      rw [h0] at hc
      exact (Except.ok.inj hc).symm
    subst hcc
    have hrt := roundtrip_2digit (coreOf 0.01) 0.01 '0' '1' '0' 'M' '1' '8'
      (by decide) (by decide) (by decide) (by decide) (by decide) (by decide) (by decide) (by decide)
      ll_lon ll_lat hdlon hdlat h1 h2 h3 h4
    exact ⟨fun _ => hrt.1, fun _ hne => absurd (by decide) hne, fun h16 => absurd h16 (by decide),
      fun _ => hrt.2⟩

/-- C1 (code bug evidence): on a grid of sampling `0.0006` (class `T6`), the
source tile `E012N036T6` decodes fine and the target sampling `0.01` resolves
to class `T18`, yet `find_overlapping_tilenames` returns the empty list
instead of the single enclosing `T18` tile, because the branch guard compares
the tiletype strings lexicographically and `"T18" < "T6"`. -/
theorem C1_find_overlapping_coarser_returns_empty :
    decode_tilename (coreOf 0.0006) (pys "E012N036T6")
      = .ok (pys "GL", 0.0006, 6, -168, -54, pys "T6") ∧
    (coreOf 0.01).tiletype = pys "T18" ∧
    pyStrGe (pys "T18") (pys "T6") = false ∧
    find_overlapping_tilenames (coreOf 0.0006) (pys "E012N036T6") (some 0.01) none
      = Except.ok [] :=
  ⟨by decide, by decide, by decide, by decide⟩

/-- C2 (code bug evidence): for the envelope `(-0.5, 1, -0.5, 1)` on a `T6`
grid, the tile with lower-left `(-6, -6)` genuinely intersects the envelope
rectangle, but the candidate lattice computed from
`int(envelope) // tilesize * tilesize` starts at `0` (Python `int()`
truncates toward zero rather than flooring), so that tile is never
enumerated. -/
theorem C2_search_bbox_misses_tile :
    rectIntersects (tile_polygon (coreOf 0.0006) (-6) (-6)) ⟨-0.5, -0.5, 1, 1⟩ = true ∧
    search_candidate_lowerlefts (coreOf 0.0006) (-0.5, 1, -0.5, 1)
      = [(0, 0), (0, 6), (6, 0), (6, 6)] ∧
    ((-6, -6) ∉ search_candidate_lowerlefts (coreOf 0.0006) (-0.5, 1, -0.5, 1)) := by decide

/-- C6 counterexample: the supported sampling `0.0016` does not round-trip:
it is ≥ `0.001`, so it is encoded on the milli-degree scale as
`int(1.6) = 1`, i.e. `"001M"`, which decodes to `0.001 ≠ 0.0016`. -/
theorem C6_sampling_roundtrip_counterexample :
    encode_sampling 0.0016 = .ok (pys "001M") ∧
    decode_sampling (pys "001M") = .ok 0.001 ∧ (0.001 : ℚ) ≠ (0.0016 : ℚ) := by decide

/-- C6 amended: for every supported sampling `s`,
`decode_sampling (encode_sampling s)` returns `s` exactly — except for
`s = 0.0016`, where it returns `0.001` (the 3-digit truncation loses the
fraction). -/
theorem C6_sampling_roundtrip_amended :
    ∀ s ∈ static_sampling,
      (encode_sampling s >>= decode_sampling)
        = .ok (if s = 0.0016 then (0.001 : ℚ) else s) := by
  intro s hs
  fin_cases hs <;> decide

/-- C6 witness: the round trip at the supported sampling `0.0001`. -/
theorem C6_sampling_roundtrip_witness :
    (encode_sampling 0.0001 >>= decode_sampling)
      = .ok (if (0.0001 : ℚ) = 0.0016 then (0.001 : ℚ) else 0.0001) :=
  C6_sampling_roundtrip_amended 0.0001 (by decide)

/-- C8 amended: with neither `target_sampling` nor `target_tiletype` given,
`find_overlapping_tilenames` fails — but with `UnboundLocalError` (the local
`sampling` is read before assignment), not `ValueError`; with only a
`target_tiletype` outside the reachable set `{T1, T3, T6}` it fails with
`ValueError` (`msg3`). -/
theorem C8_find_overlapping_bad_args_amended :
    ∀ (c : Core) (nm : PyStr),
    find_overlapping_tilenames c nm none none
      = .error (.unboundLocalError (pys "sampling")) ∧
    (∀ tt : PyStr, tt ≠ pys "T1" → tt ≠ pys "T3" → tt ≠ pys "T6" →
      find_overlapping_tilenames c nm none (some tt) = .error (.valueError c.msg3)) := by
  intro c nm
  constructor
  · rfl
  · intro tt h1 h3 h6
    simp only [find_overlapping_tilenames, if_neg h1, if_neg h3, if_neg h6, bind_err]

/-- C8 counterexample: the both-`None` call fails, but the raised exception
is `UnboundLocalError`, not the `ValueError` the claim states. -/
theorem C8_find_overlapping_none_none_counterexample :
    find_overlapping_tilenames (coreOf 0.0006) (pys "E012N036T6") none none
      = .error (.unboundLocalError (pys "sampling")) ∧
    raisedValueError
      (find_overlapping_tilenames (coreOf 0.0006) (pys "E012N036T6") none none) = false := by
  decide

/-- C8 witness: the tiletype-only call with `T18` (outside the reachable
lookup set) raises `ValueError`. -/
theorem C8_find_overlapping_witness :
    find_overlapping_tilenames (coreOf 0.0006) (pys "E012N036T6") none (some (pys "T18"))
      = .error (.valueError (coreOf 0.0006).msg3) :=
  (C8_find_overlapping_bad_args_amended (coreOf 0.0006) (pys "E012N036T6")).2
    (pys "T18") (by decide) (by decide) (by decide)

/-- C9: `create_tile` raises the invalid-arguments `AttributeError` for every
argument combination other than (`name` alone) or (`lon` and `lat` with no
`name`), and succeeds only on those two combinations. -/
theorem C9_create_tile_mutually_exclusive :
    ∀ (c : Core) (land : List PyStr) (name : Option PyStr) (lon lat : Option ℚ),
    (¬((name = none ∧ lon ≠ none ∧ lat ≠ none) ∨ (name ≠ none ∧ lon = none ∧ lat = none)) →
      create_tile c land name lon lat
        = .error (.attributeError (pys "\"name\" or \"lon\"&\"lat\" must be defined!"))) ∧
    (resultOk (create_tile c land name lon lat) = true →
      ((name = none ∧ lon ≠ none ∧ lat ≠ none) ∨ (name ≠ none ∧ lon = none ∧ lat = none))) := by
  intro c land name lon lat
  have hpart1 : ¬((name = none ∧ lon ≠ none ∧ lat ≠ none) ∨ (name ≠ none ∧ lon = none ∧ lat = none)) →
      create_tile c land name lon lat
        = .error (.attributeError (pys "\"name\" or \"lon\"&\"lat\" must be defined!")) := by
    intro h
    rcases name with _ | nm <;> rcases lon with _ | lo <;> rcases lat with _ | la
    · rfl
    · rfl
    · rfl
    · exact absurd (Or.inl ⟨rfl, Option.some_ne_none lo, Option.some_ne_none la⟩) h
    · exact absurd (Or.inr ⟨Option.some_ne_none nm, rfl, rfl⟩) h
    · rfl
    · rfl
    · rfl
  refine ⟨hpart1, ?_⟩
  intro hok
  by_contra hno
  rw [hpart1 hno] at hok
  simp [resultOk] at hok

/-- C9 witness: the all-`None` call raises the invalid-arguments error. -/
theorem C9_create_tile_witness :
    create_tile (coreOf 0.0006) [] none none none
      = .error (.attributeError (pys "\"name\" or \"lon\"&\"lat\" must be defined!")) :=
  (C9_create_tile_mutually_exclusive (coreOf 0.0006) [] none none none).1 (by simp)

/-- C3 counterexample: on the `0.01` grid (size class `T18`) with the
aligned, in-range lower-left `(0, 0)`, short-form encoding does not produce
a decodable name at all: the long name has length 18, so `tilename2short`
raises `UnboundLocalError`. -/
theorem C3_tilename_roundtrip_counterexample :
    (0 : ℤ) % (coreOf 0.01).tile_xsize_m = 0 ∧
    encode_tilename (coreOf 0.01) ((0 : ℤ) : ℚ) ((0 : ℤ) : ℚ) 0.01 (coreOf 0.01).tiletype true
      = .error (.unboundLocalError (pys "shortform")) := by decide

/-- C3 witness: the round trip at sampling `0.0001`, lower-left `(14, 45)`
(the name `GL100U_E194N135T1` from the test suite). -/
theorem C3_tilename_roundtrip_witness :
    ∃ nm, encode_tilename (coreOf 0.0001) ((14 : ℤ) : ℚ) ((45 : ℤ) : ℚ) 0.0001
        (coreOf 0.0001).tiletype false = .ok nm ∧
      decode_tilename (coreOf 0.0001) nm
        = .ok ((coreOf 0.0001).tag, 0.0001, (coreOf 0.0001).tile_xsize_m, 14, 45,
            (coreOf 0.0001).tiletype) :=
  (C3_tilename_roundtrip_amended 0.0001 (by decide) (coreOf 0.0001) (by decide) 14 45
    (by decide) (by decide) (by decide) (by decide) (by decide) (by decide)).1 (by decide)

theorem tilename2short_of_len_ne17 (c : Core) (nm : PyStr)
    (r : PyStr × ℚ × ℤ × ℤ × ℤ × PyStr)
    (hdec : decode_tilename c nm = .ok r) (hlen : nm.length ≠ 17) :
    tilename2short c nm = .error (.unboundLocalError (pys "shortform")) := by
  simp [tilename2short, check_tilename, hdec, bind_ok, hlen]

/-- C5 counterexample: the decodable short name `E012N042T6` does not get a
boolean from `check_tile_covers_land` — the call raises `UnboundLocalError`
(in `tilename2short`, which only assigns `shortform` for length-17 names) —
even with that very name in the land set. -/
theorem C5_covers_land_short_name_counterexample :
    decode_tilename (coreOf 0.0006) (pys "E012N042T6")
      = .ok (pys "GL", 0.0006, 6, -168, -48, pys "T6") ∧
    check_tile_covers_land (coreOf 0.0006) [pys "E012N042T6"] (pys "E012N042T6")
      = .error (.unboundLocalError (pys "shortform")) := by decide

/-- C5 amended: for every name that decodes against the system,
`check_tile_covers_land` returns the membership boolean of the name minus
its 7-character prefix only when the name has length 17 (`T1`/`T3`/`T6`
long form); for every other decodable length (short forms 10/11 and `T18`
long form 18) it raises `UnboundLocalError` instead of returning a
boolean. -/
theorem C5_covers_land_amended :
    ∀ (c : Core) (land : List PyStr) (nm : PyStr) (r : PyStr × ℚ × ℤ × ℤ × ℤ × PyStr),
    decode_tilename c nm = .ok r →
    ((nm.length = 17 →
        check_tile_covers_land c land nm = .ok (land.contains (nm.drop 7))) ∧
     (nm.length ≠ 17 →
        check_tile_covers_land c land nm
          = .error (.unboundLocalError (pys "shortform")))) := by
  intro c land nm r hdec
  constructor
  · intro h17
    simp [check_tile_covers_land, check_tilename, hdec, bind_ok,
      tilename2short_of_len17 c nm r hdec h17]
  · intro hne
    simp [check_tile_covers_land, check_tilename, hdec, bind_ok, bind_err,
      tilename2short_of_len_ne17 c nm r hdec hne]

/-- C5 witness: the length-17 long name `GL600U_E012N042T6` gets `True` when
its short form is in the land set. -/
theorem C5_covers_land_witness :
    check_tile_covers_land (coreOf 0.0006) [pys "E012N042T6"] (pys "GL600U_E012N042T6")
      = .ok true := by
  have h := (C5_covers_land_amended (coreOf 0.0006) [pys "E012N042T6"]
    (pys "GL600U_E012N042T6") (pys "GL", 0.0006, 6, -168, -48, pys "T6")
    (by decide)).1 (by decide)
  rw [h]
  decide

theorem mkCore_sizes (s : ℚ) (c : Core) (hc : mkCore s = Except.ok c) :
    0 < c.tile_xsize_m ∧ c.tile_ysize_m = c.tile_xsize_m := by
  simp only [mkCore] at hc
  split at hc
  · exact absurd hc (by simp)
  · cases hget : get_tiletype s with
    | error e =>
      rw [hget] at hc
      exact absurd hc (by simp [bind_err])
    | ok tt =>
      rw [hget] at hc
      have hsz : get_tilesize s
          = .ok (if tt = pys "T18" then (18 : ℤ) else if tt = pys "T6" then 6
                 else if tt = pys "T3" then 3 else 1,
                 if tt = pys "T18" then (18 : ℤ) else if tt = pys "T6" then 6
                 else if tt = pys "T3" then 3 else 1) := by
        simp [get_tilesize, hget, bind_ok]
      rw [bind_ok, hsz, bind_ok] at hc
      cases henc : encode_sampling s with
      | error e =>
        rw [henc] at hc
        exact absurd hc (by simp [bind_err])
      | ok sstr =>
        rw [henc, bind_ok] at hc
        have hcc := (Except.ok.inj hc).symm
        subst hcc
        refine ⟨?_, rfl⟩
        split_ifs <;> norm_num

theorem floor_step (t : ℤ) (ht : 0 < t) (x : ℚ) (hx : 0 ≤ x) :
    0 ≤ ⌊x / (t : ℚ)⌋ ∧ (⌊x / (t : ℚ)⌋ : ℚ) * (t : ℚ) ≤ x ∧
      x < (⌊x / (t : ℚ)⌋ : ℚ) * (t : ℚ) + (t : ℚ) := by
  have htQ : (0 : ℚ) < (t : ℚ) := by exact_mod_cast ht
  have hnn : 0 ≤ x / (t : ℚ) := div_nonneg hx htQ.le
  refine ⟨Int.floor_nonneg.mpr hnn, ?_, ?_⟩
  · rw [← le_div_iff₀ htQ]
    exact Int.floor_le _
  · have hlt : x / (t : ℚ) < (⌊x / (t : ℚ)⌋ : ℚ) + 1 := Int.lt_floor_add_one _
    calc x = x / (t : ℚ) * (t : ℚ) := by field_simp
    _ < ((⌊x / (t : ℚ)⌋ : ℚ) + 1) * (t : ℚ) := by
        exact mul_lt_mul_of_pos_right hlt htQ
    _ = (⌊x / (t : ℚ)⌋ : ℚ) * (t : ℚ) + (t : ℚ) := by ring

/-- C10: for every grid core and every in-range point, the lower-left
returned by `round_lonlat2lowerleft` is aligned to the tile grid (shifted
origin) and the point lies inside the tile: `ll ≤ coord < ll + tilesize` on
both axes. -/
theorem C10_round_lonlat2lowerleft_props :
    ∀ (s : ℚ) (c : Core), mkCore s = Except.ok c →
    ∀ lon lat : ℚ, -180 ≤ lon → lon < 180 → -90 ≤ lat → lat < 90 →
    ((∃ k : ℕ, (round_lonlat2lowerleft c lon lat).1 + 180
        = (k : ℚ) * (c.tile_xsize_m : ℚ)) ∧
     (round_lonlat2lowerleft c lon lat).1 ≤ lon ∧
     lon < (round_lonlat2lowerleft c lon lat).1 + (c.tile_xsize_m : ℚ) ∧
     (∃ k : ℕ, (round_lonlat2lowerleft c lon lat).2 + 90
        = (k : ℚ) * (c.tile_ysize_m : ℚ)) ∧
     (round_lonlat2lowerleft c lon lat).2 ≤ lat ∧
     lat < (round_lonlat2lowerleft c lon lat).2 + (c.tile_ysize_m : ℚ)) := by
  intro s c hc lon lat h1 h2 h3 h4
  obtain ⟨hx, hyx⟩ := mkCore_sizes s c hc
  have hy : 0 < c.tile_ysize_m := by rw [hyx]; exact hx
  obtain ⟨ha1, ha2, ha3⟩ := floor_step c.tile_xsize_m hx (lon + 180) (by linarith)
  obtain ⟨hb1, hb2, hb3⟩ := floor_step c.tile_ysize_m hy (lat + 90) (by linarith)
  simp only [round_lonlat2lowerleft]
  refine ⟨⟨⌊(lon + 180) / (c.tile_xsize_m : ℚ)⌋.toNat, ?_⟩, by linarith, by linarith,
    ⟨⌊(lat + 90) / (c.tile_ysize_m : ℚ)⌋.toNat, ?_⟩, by linarith, by linarith⟩
  · rw [show ((⌊(lon + 180) / (c.tile_xsize_m : ℚ)⌋.toNat : ℕ) : ℚ)
        = ((⌊(lon + 180) / (c.tile_xsize_m : ℚ)⌋ : ℤ) : ℚ) by
      exact_mod_cast congrArg (fun z : ℤ => (z : ℚ)) (Int.toNat_of_nonneg ha1)]
    ring
  · rw [show ((⌊(lat + 90) / (c.tile_ysize_m : ℚ)⌋.toNat : ℕ) : ℚ)
        = ((⌊(lat + 90) / (c.tile_ysize_m : ℚ)⌋ : ℤ) : ℚ) by
      exact_mod_cast congrArg (fun z : ℤ => (z : ℚ)) (Int.toNat_of_nonneg hb1)]
    ring

/-- C10 witness: the point `(-0.5, 7.25)` on the `0.0006` grid. -/
theorem C10_round_lonlat2lowerleft_witness :
    ((∃ k : ℕ, (round_lonlat2lowerleft (coreOf 0.0006) (-0.5) 7.25).1 + 180
        = (k : ℚ) * ((coreOf 0.0006).tile_xsize_m : ℚ)) ∧
     (round_lonlat2lowerleft (coreOf 0.0006) (-0.5) 7.25).1 ≤ -0.5 ∧
     (-0.5 : ℚ) < (round_lonlat2lowerleft (coreOf 0.0006) (-0.5) 7.25).1
        + ((coreOf 0.0006).tile_xsize_m : ℚ) ∧
     (∃ k : ℕ, (round_lonlat2lowerleft (coreOf 0.0006) (-0.5) 7.25).2 + 90
        = (k : ℚ) * ((coreOf 0.0006).tile_ysize_m : ℚ)) ∧
     (round_lonlat2lowerleft (coreOf 0.0006) (-0.5) 7.25).2 ≤ 7.25 ∧
     (7.25 : ℚ) < (round_lonlat2lowerleft (coreOf 0.0006) (-0.5) 7.25).2
        + ((coreOf 0.0006).tile_ysize_m : ℚ)) :=
  C10_round_lonlat2lowerleft_props 0.0006 (coreOf 0.0006) (by decide) (-0.5) 7.25
    (by norm_num) (by norm_num) (by norm_num) (by norm_num)

theorem decode_sampling_err_kind (sstr : PyStr) (e : PyError)
    (h : decode_sampling sstr = .error e) : ∃ msg, e = .valueError msg := by
  simp only [decode_sampling] at h
  split at h
  · exact ⟨_, (Except.error.inj h).symm⟩
  · split at h
    · exact ⟨_, (Except.error.inj h).symm⟩
    · split at h
      · cases h
      · exact ⟨_, (Except.error.inj h).symm⟩

/-- C7: `decode_tilename` raises `ValueError` for every input whose length is
not one of 10, 11, 17, 18; and for every input whose size-class suffix (the
text after the last `T`) parses to an integer different from the configured tile size of the system, decoding raises a `ValueError` — it never succeeds. -/
theorem C7_decode_rejects_malformed :
    ∀ (c : Core) (nm : PyStr),
    (¬(nm.length = 10 ∨ nm.length = 11 ∨ nm.length = 17 ∨ nm.length = 18) →
      decode_tilename c nm = .error (.valueError c.msg1)) ∧
    (∀ n : ℤ, pyInt (splitLast 'T' nm) = some n → n ≠ c.tile_xsize_m →
      raisedValueError (decode_tilename c nm) = true) := by
  intro c nm
  constructor
  · intro hlen
    have h10 : ¬(nm.length = 10 ∨ nm.length = 11) := fun h => hlen (by tauto)
    have h17 : ¬(nm.length = 17 ∨ nm.length = 18) := fun h => hlen (by tauto)
    simp only [decode_tilename, if_neg h10, if_neg h17]
  · intro n hparse hneq
    simp only [decode_tilename]
    split
    · simp only [pyIntE, hparse, bind_ok]
      rw [if_pos hneq]
      rfl
    · split
      · by_cases htag : ¬ nm.take 2 = c.tag
        · rw [if_pos htag]
          rfl
        · rw [if_neg htag]
          cases hds : decode_sampling (pySlice nm 2 6) with
          | error e =>
            rw [bind_err]
            obtain ⟨msg, rfl⟩ := decode_sampling_err_kind _ _ hds
            rfl
          | ok q =>
            rw [bind_ok]
            by_cases hcl : ¬ npIsClose q c.sampling = true
            · rw [if_pos hcl]
              rfl
            · rw [if_neg hcl]
              simp only [pyIntE, hparse, bind_ok]
              rw [if_pos hneq]
              rfl
      · rfl

/-- C7 witness: `E018N018T18` on the `T6` system decodes to a `ValueError`. -/
theorem C7_decode_rejects_malformed_witness :
    raisedValueError (decode_tilename (coreOf 0.0006) (pys "E018N018T18")) = true :=
  (C7_decode_rejects_malformed (coreOf 0.0006) (pys "E018N018T18")).2 18
    (by decide) (by decide)

/-- C4: `get_tiletype` returns `T1` exactly when the scaled sampling
`s = round(sampling * 1e4)` satisfies `1 ≤ s < 3` and `s` divides 10000,
`T3` exactly when `3 ≤ s < 6` and `s` divides 30000, `T6` exactly when
`6 ≤ s < 20` and `s` divides 60000, `T18` exactly when `20 ≤ s < 101` and
`s` divides 180000, and raises `ValueError` exactly otherwise; and every
sampling in the supported set is classified. -/
theorem C4_get_tiletype_classification :
    (∀ sampling : ℚ,
      (get_tiletype sampling = .ok (pys "T1") ↔ (1 ≤ pyRound (sampling * 10000) ∧ pyRound (sampling * 10000) < 3 ∧ 10000 % pyRound (sampling * 10000) = 0)) ∧
      (get_tiletype sampling = .ok (pys "T3") ↔ (3 ≤ pyRound (sampling * 10000) ∧ pyRound (sampling * 10000) < 6 ∧ 30000 % pyRound (sampling * 10000) = 0)) ∧
      (get_tiletype sampling = .ok (pys "T6") ↔ (6 ≤ pyRound (sampling * 10000) ∧ pyRound (sampling * 10000) < 20 ∧ 60000 % pyRound (sampling * 10000) = 0)) ∧
      (get_tiletype sampling = .ok (pys "T18") ↔ (20 ≤ pyRound (sampling * 10000) ∧ pyRound (sampling * 10000) < 101 ∧ 180000 % pyRound (sampling * 10000) = 0)) ∧
      (raisedValueError (get_tiletype sampling) = true ↔
        ¬((1 ≤ pyRound (sampling * 10000) ∧ pyRound (sampling * 10000) < 3 ∧ 10000 % pyRound (sampling * 10000) = 0) ∨ (3 ≤ pyRound (sampling * 10000) ∧ pyRound (sampling * 10000) < 6 ∧ 30000 % pyRound (sampling * 10000) = 0) ∨ (6 ≤ pyRound (sampling * 10000) ∧ pyRound (sampling * 10000) < 20 ∧ 60000 % pyRound (sampling * 10000) = 0) ∨ (20 ≤ pyRound (sampling * 10000) ∧ pyRound (sampling * 10000) < 101 ∧ 180000 % pyRound (sampling * 10000) = 0)))) ∧
    static_sampling.all (fun q => resultOk (get_tiletype q)) = true := by
  refine ⟨fun sampling => ?_, by decide⟩
  simp only [get_tiletype]
  by_cases hc1 : (1 ≤ pyRound (sampling * 10000) ∧ pyRound (sampling * 10000) < 3 ∧ 10000 % pyRound (sampling * 10000) = 0)
  · rw [if_pos hc1]
    exact ⟨⟨fun _ => hc1, fun _ => rfl⟩,
      ⟨fun h => absurd (Except.ok.inj h) (by decide), fun h => by obtain ⟨a1, a2, -⟩ := h; obtain ⟨b1, b2, -⟩ := hc1; omega⟩,
      ⟨fun h => absurd (Except.ok.inj h) (by decide), fun h => by obtain ⟨a1, a2, -⟩ := h; obtain ⟨b1, b2, -⟩ := hc1; omega⟩,
      ⟨fun h => absurd (Except.ok.inj h) (by decide), fun h => by obtain ⟨a1, a2, -⟩ := h; obtain ⟨b1, b2, -⟩ := hc1; omega⟩,
      ⟨fun h => absurd h (by decide), fun h => absurd (Or.inl hc1) h⟩⟩
  · rw [if_neg hc1]
    have hn1 := hc1
    by_cases hc2 : (3 ≤ pyRound (sampling * 10000) ∧ pyRound (sampling * 10000) < 6 ∧ 30000 % pyRound (sampling * 10000) = 0)
    · rw [if_pos hc2]
      exact ⟨⟨fun h => absurd (Except.ok.inj h) (by decide), fun h => absurd h hn1⟩,
        ⟨fun _ => hc2, fun _ => rfl⟩,
        ⟨fun h => absurd (Except.ok.inj h) (by decide), fun h => by obtain ⟨a1, a2, -⟩ := h; obtain ⟨b1, b2, -⟩ := hc2; omega⟩,
        ⟨fun h => absurd (Except.ok.inj h) (by decide), fun h => by obtain ⟨a1, a2, -⟩ := h; obtain ⟨b1, b2, -⟩ := hc2; omega⟩,
        ⟨fun h => absurd h (by decide), fun h => absurd (Or.inr (Or.inl hc2)) h⟩⟩
    · rw [if_neg hc2]
      have hn2 := hc2
      by_cases hc3 : (6 ≤ pyRound (sampling * 10000) ∧ pyRound (sampling * 10000) < 20 ∧ 60000 % pyRound (sampling * 10000) = 0)
      · rw [if_pos hc3]
        exact ⟨⟨fun h => absurd (Except.ok.inj h) (by decide), fun h => absurd h hn1⟩,
          ⟨fun h => absurd (Except.ok.inj h) (by decide), fun h => absurd h hn2⟩,
          ⟨fun _ => hc3, fun _ => rfl⟩,
          ⟨fun h => absurd (Except.ok.inj h) (by decide), fun h => by obtain ⟨a1, a2, -⟩ := h; obtain ⟨b1, b2, -⟩ := hc3; omega⟩,
          ⟨fun h => absurd h (by decide), fun h => absurd (Or.inr (Or.inr (Or.inl hc3))) h⟩⟩
      · rw [if_neg hc3]
        have hn3 := hc3
        by_cases hc4 : (20 ≤ pyRound (sampling * 10000) ∧ pyRound (sampling * 10000) < 101 ∧ 180000 % pyRound (sampling * 10000) = 0)
        · rw [if_pos hc4]
          exact ⟨⟨fun h => absurd (Except.ok.inj h) (by decide), fun h => absurd h hn1⟩,
            ⟨fun h => absurd (Except.ok.inj h) (by decide), fun h => absurd h hn2⟩,
            ⟨fun h => absurd (Except.ok.inj h) (by decide), fun h => absurd h hn3⟩,
            ⟨fun _ => hc4, fun _ => rfl⟩,
            ⟨fun h => absurd h (by decide), fun h => absurd (Or.inr (Or.inr (Or.inr hc4))) h⟩⟩
        · rw [if_neg hc4]
          have hn4 := hc4
          exact ⟨⟨fun h => Except.noConfusion h, fun h => absurd h hn1⟩,
            ⟨fun h => Except.noConfusion h, fun h => absurd h hn2⟩,
            ⟨fun h => Except.noConfusion h, fun h => absurd h hn3⟩,
            ⟨fun h => Except.noConfusion h, fun h => absurd h hn4⟩,
            ⟨fun _ => fun hd => hd.elim (fun h => hn1 h) (fun hd2 => hd2.elim (fun h => hn2 h) (fun hd3 => hd3.elim (fun h => hn3 h) (fun h => hn4 h))), fun _ => rfl⟩⟩

/-- C4 witness: the supported sampling `0.0006` is classified as `T6`. -/
theorem C4_get_tiletype_witness : get_tiletype 0.0006 = .ok (pys "T6") :=
  ((C4_get_tiletype_classification.1 0.0006).2.2.1).mpr (by decide)

end LatLonGridPy
